import Mathlib

/-!
# go-fiber-CRUD: the in-memory todo service of `main.go`

A shallow embedding of the five route handlers of `main.go` and of the package
level slice `todos` they share.

* The slice `todos : []*Todo` is a `List Todo`.  Every pointer stored in the Go slice
  is the address of a record of its own (the two literals of the initialiser and one
  fresh `&Todo{...}` per `CreateTodo`), so writing through the pointer found by the
  scan of `UpdateTodo` changes exactly the slot the scan stopped at.
* A handler is a function from the store and the request to the new store and the
  response.  The request body enters as the outcome of `ctx.BodyParser(&body)`:
  `none` when the call returns an error, `some b` when it fills the request struct.
* `strconv.Atoi` is the Go standard library function; it is embedded after its
  documented behaviour (base 10, optional sign, range of `int`).
-/

namespace GoFiberCRUD

/-! ## Data model -/

/-- The struct `Todo` of `main.go` (lines 10-14). -/
structure Todo where
  Id : Int
  Name : String
  Completed : Bool
  deriving DecidableEq

/-- The initial value of the package variable `todos` (lines 16-19). -/
def todos : List Todo :=
  [ { Id := 1, Name := "Walk the dog", Completed := false },
    { Id := 2, Name := "Walk the cat", Completed := false } ]

/-- What a handler writes as response body: nothing, `fiber.Map{"error": msg}`,
one record, or the whole slice. -/
inductive Body where
  | empty : Body
  | error (msg : String) : Body
  | todo (t : Todo) : Body
  | todos (ts : List Todo) : Body
  deriving DecidableEq

/-- Status code and body of the answer. -/
structure Response where
  status : Nat
  body : Body
  deriving DecidableEq

def StatusOK : Nat := 200
def StatusCreated : Nat := 201
def StatusNoContent : Nat := 204
def StatusBadRequest : Nat := 400
def StatusNotFound : Nat := 404

/-- The local type `request` of `UpdateTodo` (lines 55-58): two pointer fields,
`nil` when the key is absent from the body. -/
structure UpdateRequest where
  Name : Option String
  Completed : Option Bool
  deriving DecidableEq

/-- The local type `request` of `CreateTodo` (lines 145-147). -/
structure CreateRequest where
  Name : String
  deriving DecidableEq

/-! ## `strconv.Atoi` -/

/-- Width of Go's `int` on the 64-bit targets. -/
def intSize : Nat := 64

/-- One byte of the digit loop: `ch -= '0'`, rejected when the result exceeds 9. -/
def digitVal (c : Char) : Option Nat :=
  if 48 ≤ c.toNat ∧ c.toNat ≤ 57 then some (c.toNat - 48) else none

/-- The digit loop `n = n*10 + int(ch)`; fails at the first byte that is no digit. -/
def parseDigits : List Char → Nat → Option Nat
  | [], acc => some acc
  | c :: cs, acc =>
    match digitVal c with
    | none => none
    | some d => parseDigits cs (acc * 10 + d)

/-- Go's `strconv.Atoi(s)`, that is `ParseInt(s, 10, 0)`: an optional `+` or `-`, then
one or more decimal digits, and the value has to fit `int`; `none` stands for a non-nil
`err`. -/
def Atoi (s : String) : Option Int :=
  match s.data with
  | [] => none
  | c :: cs =>
    let ds := if c = '-' ∨ c = '+' then cs else c :: cs
    match ds with
    | [] => none
    | d :: ds' =>
      match parseDigits (d :: ds') 0 with
      | none => none
      | some n =>
        if c = '-' then
          (if n ≤ 2 ^ (intSize - 1) then some (-(n : Int)) else none)
        else
          (if n < 2 ^ (intSize - 1) then some (n : Int) else none)

/-! ## Handlers -/

/-- The scan `for i, t := range todos { if t.Id == id { ... } }` shared by `UpdateTodo`,
`DeleteTodo` and `GetTodo`: position and record of the first element whose `Id` is `id`. -/
def findTodo (id : Int) : List Todo → Option (Nat × Todo)
  | [] => none
  | t :: ts =>
    if t.Id = id then some (0, t)
    else
      match findTodo id ts with
      | none => none
      | some (i, u) => some (i + 1, u)

/-- The handler `GetTodos` (lines 170-172). -/
def GetTodos (todos : List Todo) : List Todo × Response :=
  (todos, ⟨StatusOK, Body.todos todos⟩)

/-- The handler `CreateTodo` (lines 144-168).  `len(todos) + 1` cannot overflow `int`,
a slice never holds `2^63 - 1` elements. -/
def CreateTodo (todos : List Todo) (body : Option CreateRequest) : List Todo × Response :=
  match body with
  | none => (todos, ⟨StatusBadRequest, Body.error "cannot parse json"⟩)
  | some body =>
    let todo : Todo := { Id := (todos.length : Int) + 1, Name := body.Name, Completed := false }
    (todos ++ [todo], ⟨StatusCreated, Body.todo todo⟩)

/-- The handler `GetTodo` (lines 124-142). -/
def GetTodo (todos : List Todo) (paramsId : String) : List Todo × Response :=
  match Atoi paramsId with
  | none => (todos, ⟨StatusBadRequest, Body.error "cannot parse id"⟩)
  | some id =>
    match findTodo id todos with
    | some (_, todo) => (todos, ⟨StatusOK, Body.todo todo⟩)
    | none => (todos, ⟨StatusNotFound, Body.empty⟩)

/-- The handler `DeleteTodo` (lines 103-122); `append(todos[0:i], todos[i+1:]...)` is
`take i ++ drop (i+1)`. -/
def DeleteTodo (todos : List Todo) (paramsId : String) : List Todo × Response :=
  match Atoi paramsId with
  | none => (todos, ⟨StatusBadRequest, Body.error "cannot parse id"⟩)
  | some id =>
    match findTodo id todos with
    | some (i, _) => (todos.take i ++ todos.drop (i + 1), ⟨StatusNoContent, Body.empty⟩)
    | none => (todos, ⟨StatusNotFound, Body.empty⟩)

/-- The two conditional assignments of `UpdateTodo` (lines 92-98). -/
def applyUpdate (todo : Todo) (body : UpdateRequest) : Todo :=
  let todo := match body.Name with
    | some n => { todo with Name := n }
    | none => todo
  match body.Completed with
  | some c => { todo with Completed := c }
  | none => todo

/-- The handler `UpdateTodo` (lines 54-101): id first, then the body, then the scan. -/
def UpdateTodo (todos : List Todo) (paramsId : String) (body : Option UpdateRequest) :
    List Todo × Response :=
  match Atoi paramsId with
  | none => (todos, ⟨StatusBadRequest, Body.error "cannot parse id"⟩)
  | some id =>
    match body with
    | none => (todos, ⟨StatusBadRequest, Body.error "cannot parse body"⟩)
    | some body =>
      match findTodo id todos with
      | none => (todos, ⟨StatusNotFound, Body.empty⟩)
      | some (i, todo) =>
        let todo := applyUpdate todo body
        (todos.set i todo, ⟨StatusOK, Body.todo todo⟩)

/-! ## Requests and request sequences -/

/-- The five routes registered by `SetupTodosRoutes` (lines 45-52). -/
inductive Request where
  | list : Request
  | create (body : Option CreateRequest) : Request
  | get (paramsId : String) : Request
  | delete (paramsId : String) : Request
  | update (paramsId : String) (body : Option UpdateRequest) : Request
  deriving DecidableEq

/-- Dispatch of one request to its handler. -/
def handle (todos : List Todo) : Request → List Todo × Response
  | Request.list => GetTodos todos
  | Request.create body => CreateTodo todos body
  | Request.get p => GetTodo todos p
  | Request.delete p => DeleteTodo todos p
  | Request.update p body => UpdateTodo todos p body

/-- Serving a sequence of requests one after the other: final store and the answers
in order. -/
def run (todos : List Todo) : List Request → List Todo × List Response
  | [] => (todos, [])
  | r :: rs =>
    let step := handle todos r
    let rest := run step.1 rs
    (rest.1, step.2 :: rest.2)

/-- The `DELETE` requests. -/
def Request.isDelete : Request → Bool
  | Request.delete _ => true
  | _ => false

/-! ## Words of the specification -/

/-- A decimal integer as the specification uses the word for the path parameter: an
optional sign followed by at least one character, all of them decimal digits. -/
def isDecimalInteger (s : String) : Bool :=
  match s.data with
  | [] => false
  | c :: cs =>
    let ds := if c = '-' ∨ c = '+' then cs else c :: cs
    !ds.isEmpty && ds.all Char.isDigit

/-- The ids of the records in store order. -/
def ids (todos : List Todo) : List Int := todos.map Todo.Id

/-- The list `1, 2, ..., n`. -/
def seqIds (n : Nat) : List Int := (List.range n).map (fun (i : Nat) => (i : Int) + 1)

/-! ## The scan -/

theorem findTodo_none_iff (id : Int) (l : List Todo) :
    findTodo id l = none ↔ ∀ x ∈ l, x.Id ≠ id := by
  induction l with
  | nil => simp [findTodo]
  | cons t ts ih =>
    by_cases h : t.Id = id
    · simp [findTodo, h]
    · cases hf : findTodo id ts with
      | none => simpa [findTodo, h, hf] using ih.mp hf
      | some q =>
        have hne : ¬ ∀ x ∈ ts, x.Id ≠ id := fun hall => by
          rw [ih.mpr hall] at hf; cases hf
        simp only [findTodo, h, hf, if_false]
        constructor
        · intro hq; cases hq
        · intro hall; exact absurd (fun x hx => hall x (List.mem_cons_of_mem _ hx)) hne

theorem findTodo_split (id : Int) (l : List Todo) (i : Nat) (t : Todo)
    (h : findTodo id l = some (i, t)) :
    ∃ pre post, l = pre ++ t :: post ∧ pre.length = i ∧ t.Id = id ∧ ∀ x ∈ pre, x.Id ≠ id := by
  induction l generalizing i with
  | nil => simp [findTodo] at h
  | cons a as ih =>
    by_cases ha : a.Id = id
    · simp only [findTodo, ha, if_true, Option.some.injEq, Prod.mk.injEq] at h
      obtain ⟨rfl, rfl⟩ := h
      exact ⟨[], as, rfl, rfl, ha, by simp⟩
    · cases hf : findTodo id as with
      | none => simp [findTodo, ha, hf] at h
      | some q =>
        obtain ⟨j, u⟩ := q
        simp only [findTodo, ha, hf, if_false, Option.some.injEq, Prod.mk.injEq] at h
        obtain ⟨rfl, rfl⟩ := h
        obtain ⟨pre, post, hl, hlen, hid, hpre⟩ := ih j hf
        refine ⟨a :: pre, post, by simp [hl], by simp [hlen], hid, ?_⟩
        intro x hx
        rcases List.mem_cons.mp hx with rfl | hx
        · exact ha
        · exact hpre x hx

theorem findTodo_append (id : Int) (pre post : List Todo) (t : Todo)
    (hpre : ∀ x ∈ pre, x.Id ≠ id) (ht : t.Id = id) :
    findTodo id (pre ++ t :: post) = some (pre.length, t) := by
  induction pre with
  | nil => simp [findTodo, ht]
  | cons a as ih =>
    have ha : a.Id ≠ id := hpre a (List.mem_cons_self _ _)
    have := ih (fun x hx => hpre x (List.mem_cons_of_mem _ hx))
    simp [findTodo, ha, this]

theorem findTodo_of_mem (id : Int) (l : List Todo) (h : ∃ t ∈ l, t.Id = id) :
    ∃ i t, findTodo id l = some (i, t) := by
  cases hf : findTodo id l with
  | none =>
    obtain ⟨t, ht, hid⟩ := h
    exact absurd hid ((findTodo_none_iff id l).mp hf t ht)
  | some q => exact ⟨q.1, q.2, rfl⟩

theorem take_drop_split (pre post : List Todo) (t : Todo) :
    (pre ++ t :: post).take pre.length ++ (pre ++ t :: post).drop (pre.length + 1)
      = pre ++ post := by
  simp [List.take_append_eq_append_take, List.drop_append_eq_append_drop]

theorem set_split (pre post : List Todo) (t u : Todo) :
    (pre ++ t :: post).set pre.length u = pre ++ u :: post := by
  simp [List.set_append]

theorem applyUpdate_eq (t : Todo) (b : UpdateRequest) :
    applyUpdate t b = ⟨t.Id, b.Name.getD t.Name, b.Completed.getD t.Completed⟩ := by
  cases t; cases b with
  | mk n c => cases n <;> cases c <;> rfl

/-! ## `Atoi` accepts decimal integers only -/

theorem digitVal_isDigit (c : Char) (d : Nat) (h : digitVal c = some d) :
    c.isDigit = true := by
  unfold digitVal at h
  split at h
  · rename_i hc
    simp only [Char.isDigit, Bool.and_eq_true, decide_eq_true_eq]
    refine ⟨?_, ?_⟩
    · show (48 : UInt32) ≤ c.val
      rw [UInt32.le_def]
      exact hc.1
    · show c.val ≤ (57 : UInt32)
      rw [UInt32.le_def]
      exact hc.2
  · cases h

theorem parseDigits_all (ds : List Char) (acc n : Nat) (h : parseDigits ds acc = some n) :
    ds.all Char.isDigit = true := by
  induction ds generalizing acc with
  | nil => rfl
  | cons c cs ih =>
    unfold parseDigits at h
    cases hd : digitVal c with
    | none => simp [hd] at h
    | some d =>
      simp only [hd] at h
      simp [digitVal_isDigit c d hd, ih _ h]

theorem Atoi_isDecimalInteger (s : String) (n : Int) (h : Atoi s = some n) :
    isDecimalInteger s = true := by
  unfold Atoi at h
  unfold isDecimalInteger
  cases hs : s.data with
  | nil => simp [hs] at h
  | cons c cs =>
    simp only [hs] at h ⊢
    generalize (if c = '-' ∨ c = '+' then cs else c :: cs) = ds at h ⊢
    cases ds with
    | nil => simp at h
    | cons d ds' =>
      simp only at h
      cases hp : parseDigits (d :: ds') 0 with
      | none => simp [hp] at h
      | some m =>
        have := parseDigits_all _ _ _ hp
        simp [this]

theorem Atoi_none_of_not_decimal (s : String) (h : isDecimalInteger s = false) :
    Atoi s = none := by
  cases ha : Atoi s with
  | none => rfl
  | some n => rw [Atoi_isDecimalInteger s n ha] at h; cases h

/-! ## Single requests -/

/-- C1: on every store, a create whose body parses with name `n` answers 201 with the
record of id `len + 1`, name `n` and `completed` false, and the store afterwards is the
old store with that record appended; on the seed store the name "Buy milk" gives id 3. -/
theorem C1_create_appends (store : List Todo) (n : String) :
    CreateTodo store (some ⟨n⟩)
        = (store ++ [⟨(store.length : Int) + 1, n, false⟩],
           ⟨201, Body.todo ⟨(store.length : Int) + 1, n, false⟩⟩)
      ∧ CreateTodo todos (some ⟨"Buy milk"⟩)
        = (todos ++ [⟨3, "Buy milk", false⟩], ⟨201, Body.todo ⟨3, "Buy milk", false⟩⟩) :=
  ⟨rfl, by decide⟩

/-- C2: when the path parameter parses to an id held by some record and the body parses,
the update answers 200 with the first record of that id, its name and its completed flag
replaced by the fields present in the body and its id kept; everything before and after
that record stays as it was, so length and order are unchanged, and with no field present
the store is unchanged. -/
theorem C2_update_first_match (store : List Todo) (p : String) (id : Int) (b : UpdateRequest)
    (hp : Atoi p = some id) (hmem : ∃ t ∈ store, t.Id = id) :
    ∃ pre t post, store = pre ++ t :: post ∧ (∀ x ∈ pre, x.Id ≠ id) ∧ t.Id = id ∧
      UpdateTodo store p (some b)
        = (pre ++ ⟨t.Id, b.Name.getD t.Name, b.Completed.getD t.Completed⟩ :: post,
           ⟨200, Body.todo ⟨t.Id, b.Name.getD t.Name, b.Completed.getD t.Completed⟩⟩) ∧
      (UpdateTodo store p (some b)).1.length = store.length ∧
      (b.Name = none → b.Completed = none →
        UpdateTodo store p (some b) = (store, ⟨200, Body.todo t⟩)) := by
  obtain ⟨i, t, hf⟩ := findTodo_of_mem id store hmem
  obtain ⟨pre, post, hl, hlen, hid, hpre⟩ := findTodo_split id store i t hf
  have hrun : UpdateTodo store p (some b)
      = (pre ++ ⟨t.Id, b.Name.getD t.Name, b.Completed.getD t.Completed⟩ :: post,
         ⟨200, Body.todo ⟨t.Id, b.Name.getD t.Name, b.Completed.getD t.Completed⟩⟩) := by
    simp only [UpdateTodo, hp, hf, applyUpdate_eq, StatusOK]
    rw [hl, ← hlen, set_split]
  refine ⟨pre, t, post, hl, hpre, hid, hrun, ?_, ?_⟩
  · rw [hrun, hl]; simp
  · intro hn hc
    rw [hrun, hn, hc, hl]
    rfl

/-- C2, at the seed store: PATCH of id 1 with completed true. -/
theorem C2_update_first_match_witness :
    ∃ pre t post, todos = pre ++ t :: post ∧ (∀ x ∈ pre, x.Id ≠ 1) ∧ t.Id = 1 ∧
      UpdateTodo todos "1" (some ⟨none, some true⟩)
        = (pre ++ ⟨t.Id, (none : Option String).getD t.Name,
                    (some true).getD t.Completed⟩ :: post,
           ⟨200, Body.todo ⟨t.Id, (none : Option String).getD t.Name,
                    (some true).getD t.Completed⟩⟩) ∧
      (UpdateTodo todos "1" (some ⟨none, some true⟩)).1.length = todos.length ∧
      ((none : Option String) = none → some true = none →
        UpdateTodo todos "1" (some ⟨none, some true⟩) = (todos, ⟨200, Body.todo t⟩)) :=
  C2_update_first_match todos "1" 1 ⟨none, some true⟩ (by decide)
    ⟨⟨1, "Walk the dog", false⟩, by decide, rfl⟩

/-- C3: when the path parameter parses to an id held by some record, the delete answers
204 with an empty body and removes the first record of that id and nothing else: the
records before it and after it remain, unchanged and in their order, and the store is
one record shorter. -/
theorem C3_delete_removes_one (store : List Todo) (p : String) (id : Int)
    (hp : Atoi p = some id) (hmem : ∃ t ∈ store, t.Id = id) :
    ∃ pre t post, store = pre ++ t :: post ∧ (∀ x ∈ pre, x.Id ≠ id) ∧ t.Id = id ∧
      DeleteTodo store p = (pre ++ post, ⟨204, Body.empty⟩) ∧
      (DeleteTodo store p).1.length + 1 = store.length := by
  obtain ⟨i, t, hf⟩ := findTodo_of_mem id store hmem
  obtain ⟨pre, post, hl, hlen, hid, hpre⟩ := findTodo_split id store i t hf
  have hrun : DeleteTodo store p = (pre ++ post, ⟨204, Body.empty⟩) := by
    simp only [DeleteTodo, hp, hf, StatusNoContent]
    rw [hl, ← hlen, take_drop_split]
  refine ⟨pre, t, post, hl, hpre, hid, hrun, ?_⟩
  rw [hrun, hl]; simp; omega

/-- C3, at the seed store: DELETE of id 2. -/
theorem C3_delete_removes_one_witness :
    ∃ pre t post, todos = pre ++ t :: post ∧ (∀ x ∈ pre, x.Id ≠ 2) ∧ t.Id = 2 ∧
      DeleteTodo todos "2" = (pre ++ post, ⟨204, Body.empty⟩) ∧
      (DeleteTodo todos "2").1.length + 1 = todos.length :=
  C3_delete_removes_one todos "2" 2 (by decide) ⟨⟨2, "Walk the cat", false⟩, by decide, rfl⟩

/-- C4: when the path parameter is not a decimal integer, get, update and delete answer
400 with the error "cannot parse id" and leave the store alone, whatever the store and
whatever the body of the update, parsable or not. -/
theorem C4_bad_id_is_400 (store : List Todo) (p : String) (body : Option UpdateRequest)
    (h : isDecimalInteger p = false) :
    GetTodo store p = (store, ⟨400, Body.error "cannot parse id"⟩) ∧
    UpdateTodo store p body = (store, ⟨400, Body.error "cannot parse id"⟩) ∧
    DeleteTodo store p = (store, ⟨400, Body.error "cannot parse id"⟩) := by
  have ha := Atoi_none_of_not_decimal p h
  simp [GetTodo, UpdateTodo, DeleteTodo, ha, StatusBadRequest]

/-- C4, at the seed store with the parameter "abc" and an unparsable body. -/
theorem C4_bad_id_is_400_witness :
    isDecimalInteger "abc" = false ∧
    (GetTodo todos "abc" = (todos, ⟨400, Body.error "cannot parse id"⟩) ∧
     UpdateTodo todos "abc" none = (todos, ⟨400, Body.error "cannot parse id"⟩) ∧
     DeleteTodo todos "abc" = (todos, ⟨400, Body.error "cannot parse id"⟩)) :=
  ⟨by decide, C4_bad_id_is_400 todos "abc" none (by decide)⟩

/-- C5 as stated fails: with the numeric parameter "7", the id of no seed record, an
update whose body does not parse is answered 400 "cannot parse body", not 404; and the
numeric parameter "99999999999999999999" does not fit `int`, so a get is answered 400. -/
theorem C5_counterexample :
    (isDecimalInteger "7" = true ∧ Atoi "7" = some 7 ∧ (∀ t ∈ todos, t.Id ≠ 7) ∧
      UpdateTodo todos "7" none = (todos, ⟨400, Body.error "cannot parse body"⟩)) ∧
    (isDecimalInteger "99999999999999999999" = true ∧
      GetTodo todos "99999999999999999999" = (todos, ⟨400, Body.error "cannot parse id"⟩)) := by
  decide

/-- C5, amended: when the path parameter parses to an id that no record of the store
has, get and delete answer 404 with an empty body, and so does update whenever its body
parses; an update whose body does not parse is answered 400 "cannot parse body", the
body being checked before the scan; the store is left alone in each case. -/
theorem C5_absent_id_is_404 (store : List Todo) (p : String) (id : Int) (b : UpdateRequest)
    (hp : Atoi p = some id) (habs : ∀ t ∈ store, t.Id ≠ id) :
    GetTodo store p = (store, ⟨404, Body.empty⟩) ∧
    UpdateTodo store p (some b) = (store, ⟨404, Body.empty⟩) ∧
    DeleteTodo store p = (store, ⟨404, Body.empty⟩) ∧
    UpdateTodo store p none = (store, ⟨400, Body.error "cannot parse body"⟩) := by
  have hf := (findTodo_none_iff id store).mpr habs
  simp [GetTodo, UpdateTodo, DeleteTodo, hp, hf, StatusNotFound, StatusBadRequest]

/-- C5 amended, at the seed store with the parameter "7". -/
theorem C5_absent_id_is_404_witness :
    GetTodo todos "7" = (todos, ⟨404, Body.empty⟩) ∧
    UpdateTodo todos "7" (some ⟨some "x", none⟩) = (todos, ⟨404, Body.empty⟩) ∧
    DeleteTodo todos "7" = (todos, ⟨404, Body.empty⟩) ∧
    UpdateTodo todos "7" none = (todos, ⟨400, Body.error "cannot parse body"⟩) :=
  C5_absent_id_is_404 todos "7" 7 ⟨some "x", none⟩ (by decide) (by decide)

/-! ## Request sequences -/

theorem DeleteTodo_length (store : List Todo) (p : String) :
    ((DeleteTodo store p).2.status = 204 ∧ (DeleteTodo store p).1.length + 1 = store.length) ∨
    ((DeleteTodo store p).2.status ≠ 201 ∧ (DeleteTodo store p).2.status ≠ 204 ∧
      (DeleteTodo store p).1 = store) := by
  cases ha : Atoi p with
  | none => right; simp [DeleteTodo, ha, StatusBadRequest]
  | some id =>
    cases hf : findTodo id store with
    | none => right; simp [DeleteTodo, ha, hf, StatusNotFound]
    | some q =>
      obtain ⟨i, t⟩ := q
      obtain ⟨pre, post, hl, hlen, -, -⟩ := findTodo_split id store i t hf
      left
      simp only [DeleteTodo, ha, hf, StatusNoContent, true_and]
      rw [hl, ← hlen, take_drop_split]
      simp; omega

theorem UpdateTodo_length (store : List Todo) (p : String) (body : Option UpdateRequest) :
    (UpdateTodo store p body).2.status ≠ 201 ∧ (UpdateTodo store p body).2.status ≠ 204 ∧
      (UpdateTodo store p body).1.length = store.length := by
  cases ha : Atoi p with
  | none => simp [UpdateTodo, ha, StatusBadRequest]
  | some id =>
    cases body with
    | none => simp [UpdateTodo, ha, StatusBadRequest]
    | some b =>
      cases hf : findTodo id store with
      | none => simp [UpdateTodo, ha, hf, StatusNotFound]
      | some q => simp [UpdateTodo, ha, hf, StatusOK]

theorem GetTodo_length (store : List Todo) (p : String) :
    (GetTodo store p).2.status ≠ 201 ∧ (GetTodo store p).2.status ≠ 204 ∧
      (GetTodo store p).1 = store := by
  cases ha : Atoi p with
  | none => simp [GetTodo, ha, StatusBadRequest]
  | some id =>
    cases hf : findTodo id store with
    | none => simp [GetTodo, ha, hf, StatusNotFound]
    | some q => simp [GetTodo, ha, hf, StatusOK]

theorem CreateTodo_length (store : List Todo) (body : Option CreateRequest) :
    ((CreateTodo store body).2.status = 201 ∧ (CreateTodo store body).1.length = store.length + 1) ∨
    ((CreateTodo store body).2.status ≠ 201 ∧ (CreateTodo store body).2.status ≠ 204 ∧
      (CreateTodo store body).1 = store) := by
  cases body with
  | none => right; simp [CreateTodo, StatusBadRequest]
  | some b => left; simp [CreateTodo, StatusCreated]

/-- One request changes the number of records by +1 when answered 201, by -1 when
answered 204, and not at all otherwise. -/
theorem handle_length (store : List Todo) (r : Request) :
    ((handle store r).2.status = 201 ∧ (handle store r).1.length = store.length + 1) ∨
    ((handle store r).2.status = 204 ∧ (handle store r).1.length + 1 = store.length) ∨
    ((handle store r).2.status ≠ 201 ∧ (handle store r).2.status ≠ 204 ∧
      (handle store r).1.length = store.length) := by
  cases r with
  | list => right; right; simp [handle, GetTodos, StatusOK]
  | create body =>
    rcases CreateTodo_length store body with h | ⟨h1, h2, h3⟩
    · left; exact h
    · right; right; exact ⟨h1, h2, by rw [handle, h3]⟩
  | get p =>
    obtain ⟨h1, h2, h3⟩ := GetTodo_length store p
    right; right; exact ⟨h1, h2, by rw [handle, h3]⟩
  | delete p =>
    rcases DeleteTodo_length store p with h | ⟨h1, h2, h3⟩
    · right; left; exact h
    · right; right; exact ⟨h1, h2, by rw [handle, h3]⟩
  | update p body => right; right; exact UpdateTodo_length store p body

theorem run_length (store : List Todo) (rs : List Request) :
    (run store rs).1.length + (run store rs).2.countP (fun r => r.status = 204)
      = store.length + (run store rs).2.countP (fun r => r.status = 201) := by
  induction rs generalizing store with
  | nil => simp [run]
  | cons r rs ih =>
    have hstep := handle_length store r
    have hrest := ih (handle store r).1
    simp only [run, List.countP_cons]
    rcases hstep with ⟨h1, h2⟩ | ⟨h1, h2⟩ | ⟨h1, h2, h3⟩
    · simp [h1]; omega
    · simp [h1]; omega
    · simp [h1, h2]; omega

/-- C6, the code at DELETE of id 1 followed by a create on the seed store: the create
takes `len + 1 = 2`, the id of the record still in the store, and the store then holds
two records of id 2. -/
theorem C6_duplicate_id_after_delete :
    run todos [Request.delete "1", Request.create (some ⟨"Buy milk"⟩)]
        = ([⟨2, "Walk the cat", false⟩, ⟨2, "Buy milk", false⟩],
           [⟨204, Body.empty⟩, ⟨201, Body.todo ⟨2, "Buy milk", false⟩⟩]) ∧
      ¬ (ids (run todos [Request.delete "1", Request.create (some ⟨"Buy milk"⟩)]).1).Nodup := by
  decide

/-- C8: after any sequence of requests on the seed store the list handler answers 200
with the whole store, and the number of records is 2 plus the number of answers 201
minus the number of answers 204; a request answered neither 201 nor 204 (every list,
get and update, every 400 and 404) leaves the number of records as it was. -/
theorem C8_list_count (rs : List Request) :
    (GetTodos (run todos rs).1).2 = ⟨200, Body.todos (run todos rs).1⟩ ∧
    (run todos rs).1.length + (run todos rs).2.countP (fun r => r.status = 204)
      = 2 + (run todos rs).2.countP (fun r => r.status = 201) ∧
    (run todos rs).1.length
      = 2 + (run todos rs).2.countP (fun r => r.status = 201)
          - (run todos rs).2.countP (fun r => r.status = 204) ∧
    (∀ store r, (handle store r).2.status ≠ 201 → (handle store r).2.status ≠ 204 →
      (handle store r).1.length = store.length) ∧
    (∀ store p body, (GetTodos store).1 = store ∧ (GetTodo store p).1 = store ∧
      (UpdateTodo store p body).1.length = store.length) := by
  have h := run_length todos rs
  have h2 : todos.length = 2 := rfl
  refine ⟨rfl, by omega, by omega, ?_, ?_⟩
  · intro store r h1 h4
    rcases handle_length store r with ⟨a, -⟩ | ⟨a, -⟩ | ⟨-, -, a⟩
    · exact absurd a h1
    · exact absurd a h4
    · exact a
  · intro store p body
    exact ⟨rfl, (GetTodo_length store p).2.2, (UpdateTodo_length store p body).2.2⟩

/-- C9, the code at DELETE 1, create, DELETE 2, GET 2 on the seed store: after the first
two requests two records have id 2, the DELETE of id 2 is answered 204 and removes the
first of them, and the GET of id 2 right after it is answered 200 with the second. -/
theorem C9_get_after_delete_finds_duplicate :
    (run todos [Request.delete "1", Request.create (some ⟨"Buy milk"⟩)]).1
        = [⟨2, "Walk the cat", false⟩, ⟨2, "Buy milk", false⟩] ∧
    DeleteTodo [⟨2, "Walk the cat", false⟩, ⟨2, "Buy milk", false⟩] "2"
        = ([⟨2, "Buy milk", false⟩], ⟨204, Body.empty⟩) ∧
    GetTodo [⟨2, "Buy milk", false⟩] "2"
        = ([⟨2, "Buy milk", false⟩], ⟨200, Body.todo ⟨2, "Buy milk", false⟩⟩) := by
  decide

/-! ## Sequences without a successful delete -/

theorem seqIds_succ (n : Nat) : seqIds (n + 1) = seqIds n ++ [(n : Int) + 1] := by
  simp [seqIds, List.range_succ]

theorem seqIds_nodup (n : Nat) : (seqIds n).Nodup := by
  unfold seqIds
  apply List.Nodup.map _ (List.nodup_range n)
  intro a b h
  simp only at h
  omega

theorem ids_set_same (pre post : List Todo) (t u : Todo) (h : u.Id = t.Id) :
    ids (pre ++ u :: post) = ids (pre ++ t :: post) := by
  simp [ids, h]

theorem applyUpdate_Id (t : Todo) (b : UpdateRequest) : (applyUpdate t b).Id = t.Id := by
  rw [applyUpdate_eq]

/-- An update never changes the ids of the store. -/
theorem UpdateTodo_ids (store : List Todo) (p : String) (body : Option UpdateRequest) :
    ids (UpdateTodo store p body).1 = ids store := by
  cases ha : Atoi p with
  | none => simp [UpdateTodo, ha]
  | some id =>
    cases body with
    | none => simp [UpdateTodo, ha]
    | some b =>
      cases hf : findTodo id store with
      | none => simp [UpdateTodo, ha, hf]
      | some q =>
        obtain ⟨i, t⟩ := q
        obtain ⟨pre, post, hl, hlen, -, -⟩ := findTodo_split id store i t hf
        simp only [UpdateTodo, ha, hf]
        rw [hl, ← hlen, set_split]
        exact ids_set_same pre post t _ (applyUpdate_Id t b)

/-- A request that is not answered 204 keeps the ids at `1, ..., len`. -/
theorem handle_seqIds (store : List Todo) (r : Request)
    (hinv : ids store = seqIds store.length) (h : (handle store r).2.status ≠ 204) :
    ids (handle store r).1 = seqIds (handle store r).1.length := by
  cases r with
  | list => exact hinv
  | create body =>
    cases body with
    | none => exact hinv
    | some b =>
      simp only [handle, CreateTodo, List.length_append, List.length_singleton, seqIds_succ]
      simp [ids] at hinv ⊢
      exact hinv
  | get p =>
    have := (GetTodo_length store p).2.2
    simp only [handle, this]; exact hinv
  | delete p =>
    rcases DeleteTodo_length store p with ⟨h1, -⟩ | ⟨-, -, h3⟩
    · exact absurd h1 h
    · simp only [handle, h3]; exact hinv
  | update p body =>
    simp only [handle]
    rw [UpdateTodo_ids, (UpdateTodo_length store p body).2.2]
    exact hinv

theorem run_seqIds (store : List Todo) (rs : List Request)
    (hinv : ids store = seqIds store.length)
    (h : ∀ resp ∈ (run store rs).2, resp.status ≠ 204) :
    ids (run store rs).1 = seqIds (run store rs).1.length := by
  induction rs generalizing store with
  | nil => exact hinv
  | cons r rs ih =>
    simp only [run] at h ⊢
    have h1 : (handle store r).2.status ≠ 204 := h _ (List.mem_cons_self _ _)
    exact ih _ (handle_seqIds store r hinv h1) (fun resp hr => h resp (List.mem_cons_of_mem _ hr))

/-- Without a `DELETE` request no answer is 204. -/
theorem run_no_delete (store : List Todo) (rs : List Request)
    (h : ∀ r ∈ rs, r.isDelete = false) :
    ∀ resp ∈ (run store rs).2, resp.status ≠ 204 := by
  induction rs generalizing store with
  | nil => simp [run]
  | cons r rs ih =>
    intro resp hresp
    simp only [run, List.mem_cons] at hresp
    rcases hresp with rfl | hresp
    · have hr := h r (List.mem_cons_self _ _)
      cases r with
      | list => simp [handle, GetTodos, StatusOK]
      | create body =>
        rcases CreateTodo_length store body with ⟨a, -⟩ | ⟨-, a, -⟩
        · simp [handle, a]
        · exact a
      | get p => exact (GetTodo_length store p).2.1
      | delete p => simp [Request.isDelete] at hr
      | update p body => exact (UpdateTodo_length store p body).2.1
    · exact ih _ (fun r hr => h r (List.mem_cons_of_mem _ hr)) resp hresp

/-- In a store whose ids are `off + 1, off + 2, ...` the scan for the id of position `j`
stops at position `j`. -/
theorem findTodo_consecutive (l : List Todo) (off : Int) (j : Nat) (t : Todo)
    (hids : ids l = (List.range l.length).map (fun (i : Nat) => (i : Int) + off))
    (hj : l[j]? = some t) :
    findTodo ((j : Int) + off) l = some (j, t) := by
  induction l generalizing off j with
  | nil => simp at hj
  | cons a as ih =>
    simp only [ids, List.map_cons, List.length_cons, List.range_succ_eq_map, List.map_map,
      List.cons.injEq] at hids
    have ha : a.Id = off := by simpa using hids.1
    have htl := hids.2
    have htl2 : ids as = (List.range as.length).map (fun (i : Nat) => (i : Int) + (off + 1)) := by
      rw [ids, htl]
      apply List.map_congr_left
      intro i _
      simp only [Function.comp, Nat.succ_eq_add_one]
      push_cast
      ring
    cases j with
    | zero =>
      simp only [List.getElem?_cons_zero, Option.some.injEq] at hj
      subst hj
      simp [findTodo, ha]
    | succ k =>
      simp only [List.getElem?_cons_succ] at hj
      have hrec := ih (off + 1) k htl2 hj
      have hne : ¬ a.Id = ((k + 1 : Nat) : Int) + off := by
        rw [ha]; push_cast; omega
      have heq : ((k + 1 : Nat) : Int) + off = (k : Int) + (off + 1) := by push_cast; ring
      simp only [findTodo, hne, if_false]
      rw [heq, hrec]

/-- C10: after any request sequence on the seed store in which no answer is 204 (so
after any sequence of list, create, get and update requests) the ids in store order are
`1, 2, ..., n` for the `n` records of the store; they are pairwise distinct, and a get
whose parameter parses to `k` with `1 ≤ k ≤ n` answers 200 with the `k`-th record. -/
theorem C10_ids_sequential (rs : List Request)
    (h : ∀ resp ∈ (run todos rs).2, resp.status ≠ 204) :
    ids (run todos rs).1 = seqIds (run todos rs).1.length ∧
    (ids (run todos rs).1).Nodup ∧
    ∀ (k : Nat) (p : String), 1 ≤ k → k ≤ (run todos rs).1.length → Atoi p = some (k : Int) →
      ∃ t, (run todos rs).1[k - 1]? = some t ∧ t.Id = (k : Int) ∧
        GetTodo (run todos rs).1 p = ((run todos rs).1, ⟨200, Body.todo t⟩) := by
  have hinv : ids (run todos rs).1 = seqIds (run todos rs).1.length :=
    run_seqIds todos rs (by decide) h
  refine ⟨hinv, by rw [hinv]; exact seqIds_nodup _, ?_⟩
  intro k p hk1 hkn hp
  have hlt : k - 1 < (run todos rs).1.length := by omega
  have hget : (run todos rs).1[k - 1]? = some ((run todos rs).1[k - 1]) :=
    List.getElem?_eq_getElem hlt
  have hfind := findTodo_consecutive (run todos rs).1 1 (k - 1) _ hinv hget
  have hk : ((k - 1 : Nat) : Int) + 1 = (k : Int) := by omega
  rw [hk] at hfind
  have hid : ((run todos rs).1[k - 1]).Id = (k : Int) :=
    (findTodo_split _ _ _ _ hfind).choose_spec.choose_spec.2.2.1
  refine ⟨_, hget, hid, ?_⟩
  simp [GetTodo, hp, hfind, StatusOK]

/-- C10, after a create, an update, a get, a failed delete and a list on the seed store. -/
theorem C10_ids_sequential_witness :
    ids (run todos [Request.create (some ⟨"Buy milk"⟩),
        Request.update "1" (some ⟨none, some true⟩), Request.get "2", Request.delete "9",
        Request.list]).1 = [1, 2, 3] ∧
    GetTodo (run todos [Request.create (some ⟨"Buy milk"⟩),
        Request.update "1" (some ⟨none, some true⟩), Request.get "2", Request.delete "9",
        Request.list]).1 "3"
      = ([⟨1, "Walk the dog", true⟩, ⟨2, "Walk the cat", false⟩, ⟨3, "Buy milk", false⟩],
         ⟨200, Body.todo ⟨3, "Buy milk", false⟩⟩) := by
  have h := C10_ids_sequential [Request.create (some ⟨"Buy milk"⟩),
        Request.update "1" (some ⟨none, some true⟩), Request.get "2", Request.delete "9",
        Request.list] (by decide)
  obtain ⟨t, ht, -, hg⟩ := h.2.2 3 "3" (by decide) (by decide) (by decide)
  refine ⟨h.1, ?_⟩
  rw [hg]
  have : t = ⟨3, "Buy milk", false⟩ := by
    have h2 : (run todos [Request.create (some ⟨"Buy milk"⟩),
        Request.update "1" (some ⟨none, some true⟩), Request.get "2", Request.delete "9",
        Request.list]).1[3 - 1]? = some ⟨3, "Buy milk", false⟩ := by decide
    rw [h2] at ht
    exact (Option.some.inj ht).symm
  rw [this]
  decide

/-- When the ids of the store are pairwise distinct, a get right after a successful
delete of the same parameter is answered 404. -/
theorem get_after_delete_of_nodup (store : List Todo) (p : String)
    (hnd : (ids store).Nodup) (hdel : (DeleteTodo store p).2.status = 204) :
    GetTodo (DeleteTodo store p).1 p = ((DeleteTodo store p).1, ⟨404, Body.empty⟩) := by
  cases ha : Atoi p with
  | none => simp [DeleteTodo, ha, StatusBadRequest] at hdel
  | some id =>
    cases hf : findTodo id store with
    | none => simp [DeleteTodo, ha, hf, StatusNotFound] at hdel
    | some q =>
      obtain ⟨i, t⟩ := q
      obtain ⟨pre, post, hl, hlen, hid, hpre⟩ := findTodo_split id store i t hf
      have hstore : (DeleteTodo store p).1 = pre ++ post := by
        simp only [DeleteTodo, ha, hf]
        rw [hl, ← hlen, take_drop_split]
      have hnone : findTodo id (pre ++ post) = none := by
        rw [findTodo_none_iff]
        intro x hx
        rcases List.mem_append.mp hx with hx | hx
        · exact hpre x hx
        · intro hxid
          rw [hl] at hnd
          simp only [ids, List.map_append, List.map_cons] at hnd
          have h2 := (List.nodup_append.mp hnd).2.1
          have h3 := (List.nodup_cons.mp h2).1
          apply h3
          rw [hid, ← hxid]
          exact List.mem_map_of_mem _ hx
      rw [hstore]
      simp [GetTodo, ha, hnone, StatusNotFound]

end GoFiberCRUD
